import Mathlib

/-!
Verification of the AT89S52 buzzer controller (src/code/AT89S52-Buzzer1.c).

The C program is embedded shallowly: every piece of mutable state (globals,
`static` locals of the C functions) becomes a field of `SysState`, and each C
function becomes a pure Lean function on `SysState`.  Machine integers are
modelled as `Nat` (for the unsigned 8/16-bit variables) with explicit
reduction modulo 2^16 exactly where the C arithmetic wraps, and as `Int`
(for the 16-bit signed `freqStep`) with explicit two's-complement wrapping.
The compilers targeted by the source (SDCC / Keil C51) have 16-bit `int` and
32-bit `long`; these widths drive the integer-promotion semantics used below.
-/

set_option autoImplicit false

/-- Unsigned 16-bit addition: `a + b` reduced modulo 2^16, as performed on the
`uint16_t` variables of the C source. -/
def add16 (a b : Nat) : Nat := (a + b) % 65536

/-- Unsigned 16-bit subtraction: `a - b` modulo 2^16 (two's-complement wrap on
underflow), for `a < 65536`.  Written as addition of the additive complement
of `b`. -/
def sub16 (a b : Nat) : Nat := (a + (65536 - b % 65536)) % 65536

/-- Two's-complement wrap of an integer into the signed 16-bit range
`[-32768, 32767]`, the value a C `int16_t` holds after an overflowing
operation on the 8051 compilers. -/
def wrap16s (x : Int) : Int := (x + 32768) % 65536 - 32768

/-- The constant table `rangeParams[2][3]` of the source:
`{{25, 50, 37}, {9, 18, 13}}`, indexed by the `currentRange` bit; each entry
is the `(min, max, initial)` period triple of a band. -/
def rangeParams (r : Bool) : Nat × Nat × Nat :=
  if r then (9, 18, 13) else (25, 50, 37)

/-- `rangeParams[r][0]`, the band's minimum period (`minDelay` in the source). -/
def minDelay (r : Bool) : Nat := (rangeParams r).1

/-- `rangeParams[r][1]`, the band's maximum period (`maxDelay` in the source). -/
def maxDelay (r : Bool) : Nat := (rangeParams r).2.1

/-- `rangeParams[r][2]`, the band's initial period. -/
def initDelay (r : Bool) : Nat := (rangeParams r).2.2

/-- The constant table `speedSteps[5] = {1, 2, 3, 5, 8}` of the source.  The
main loop keeps `currentSpeed < 5`; out-of-range indices (undefined behaviour
in C) are mapped to 0 and are never used by any theorem below. -/
def speedSteps (i : Nat) : Nat :=
  match i with
  | 0 => 1
  | 1 => 2
  | 2 => 3
  | 3 => 5
  | 4 => 8
  | _ => 0

/-- The function `simple_rand` of the source, acting on its `static uint16_t
seed`; returns the pair (new seed, returned byte).

C semantics embedded here: `seed` is a 16-bit unsigned; the literal
`1103515245` has type `long` (signed 32-bit on SDCC/Keil), so
`seed * 1103515245 + 12345` is computed in signed 32-bit arithmetic and wraps
in two's complement on overflow (what the generated 8051 code does); C's `%`
is the truncated remainder (negative for a negative left operand); the result
is then converted back to the 16-bit unsigned `seed`, i.e. reduced mod 2^16.
The returned byte is `(uint8_t)(seed & 0xFF)`. -/
def simple_rand (seed : Nat) : Nat × Nat :=
  let u : Nat := (seed * 1103515245 + 12345) % 4294967296
  let v : Int := if u < 2147483648 then (u : Int) else (u : Int) - 4294967296
  let m : Int := if v < 0 then -((-v) % 32768) else v % 32768
  let s2 : Nat := (m % 65536).toNat
  (s2, s2 % 256)

/-- The recurrence exactly as the specification words it ("`seed = (seed *
1103515245 + 12345) mod 32768`"), i.e. the idealized mathematical reading in
which the whole right-hand side is a nonnegative value reduced mod 32768.
Used to compare the spec's description against `simple_rand`. -/
def rand_spec_seed (seed : Nat) : Nat := (seed * 1103515245 + 12345) % 32768

/-- The whole mutable state of the program: the global variables, plus the
`static` locals of `update_sweep`, `simple_rand`, `generate_tone` and the
four `checkButton_*` functions. -/
structure SysState where
  isActive : Bool
  currentRange : Bool
  currentPattern : Nat
  currentSpeed : Nat
  sweepDirection : Bool
  currentFreqDelay : Nat
  pulseCount : Nat
  stepCount : Nat
  freqStep : Int
  hbCount : Nat
  sirenCount : Nat
  chirpState : Nat
  chirpCount : Nat
  walkCount : Nat
  seed : Nat
  toneCounter : Nat
  buzzer : Bool
  buzzerComp : Bool
  lastPWR : Bool
  lastPAT : Bool
  lastSPD : Bool
  lastRNG : Bool
deriving DecidableEq

/-- `case 0` of `update_sweep`: Up Sweep. -/
def sweep0 (s : SysState) : SysState :=
  let mn := minDelay s.currentRange
  let mx := maxDelay s.currentRange
  if mn < s.currentFreqDelay then
    { s with currentFreqDelay := sub16 s.currentFreqDelay (speedSteps s.currentSpeed) }
  else
    { s with currentFreqDelay := mx }

/-- `case 1` of `update_sweep`: Down Sweep. -/
def sweep1 (s : SysState) : SysState :=
  let mn := minDelay s.currentRange
  let mx := maxDelay s.currentRange
  if s.currentFreqDelay < mx then
    { s with currentFreqDelay := add16 s.currentFreqDelay (speedSteps s.currentSpeed) }
  else
    { s with currentFreqDelay := mn }

/-- `case 2` of `update_sweep`: Zig-Zag. -/
def sweep2 (s : SysState) : SysState :=
  let mn := minDelay s.currentRange
  let mx := maxDelay s.currentRange
  if s.sweepDirection then
    if s.currentFreqDelay < mx then
      { s with currentFreqDelay := add16 s.currentFreqDelay (speedSteps s.currentSpeed) }
    else
      { s with sweepDirection := false }
  else
    if mn < s.currentFreqDelay then
      { s with currentFreqDelay := sub16 s.currentFreqDelay (speedSteps s.currentSpeed) }
    else
      { s with sweepDirection := true }

/-- `case 3` of `update_sweep`: Random.  Two PRNG draws when redrawing
(`simple_rand() < 20`), one otherwise. -/
def sweep3 (s : SysState) : SysState :=
  let mn := minDelay s.currentRange
  let mx := maxDelay s.currentRange
  let d1 := simple_rand s.seed
  if d1.2 < 20 then
    let d2 := simple_rand d1.1
    { s with seed := d2.1, currentFreqDelay := mn + d2.2 % (mx - mn + 1) }
  else
    { s with seed := d1.1 }

/-- `case 4` of `update_sweep`: Pulse; drives `BUZZER` directly from its own
counter, leaving the period untouched. -/
def sweep4 (s : SysState) : SysState :=
  let pc0 := add16 s.pulseCount 1
  let pc := if 500 ≤ pc0 then 0 else pc0
  { s with pulseCount := pc, buzzer := decide (pc < 50) }

/-- `case 5` of `update_sweep`: Stepped. -/
def sweep5 (s : SysState) : SysState :=
  let mn := minDelay s.currentRange
  let mx := maxDelay s.currentRange
  let sc := add16 s.stepCount 1
  let p1 := mn + (sub16 (add16 s.currentFreqDelay (speedSteps s.currentSpeed)) mn) % (mx - mn + 1)
  if 100 ≤ sc then
    { s with stepCount := 0, currentFreqDelay := p1 }
  else
    { s with stepCount := sc }

/-- `case 6` of `update_sweep`: Triangle.  `freqStep` is a signed 16-bit
(±1 in every reachable state); the product `freqStep * speedSteps[...]` is an
`int` and the sum with the `uint16_t` period reduces mod 2^16. -/
def sweep6 (s : SysState) : SysState :=
  let mn := minDelay s.currentRange
  let mx := maxDelay s.currentRange
  let p1 := (((s.currentFreqDelay : Int) +
    wrap16s (s.freqStep * (speedSteps s.currentSpeed : Int))) % 65536).toNat
  if p1 ≤ mn ∨ mx ≤ p1 then
    { s with currentFreqDelay := p1, freqStep := wrap16s (-s.freqStep) }
  else
    { s with currentFreqDelay := p1 }

/-- `case 7` of `update_sweep`: Heartbeat. -/
def sweep7 (s : SysState) : SysState :=
  let mn := minDelay s.currentRange
  let mx := maxDelay s.currentRange
  let hb0 := add16 s.hbCount 1
  let hb := if 600 ≤ hb0 then 0 else hb0
  let p1 :=
    if hb < 100 then mn + 2
    else if hb < 150 then mx
    else if hb < 250 then mn + 1
    else mx
  { s with hbCount := hb, currentFreqDelay := p1 }

/-- `case 8` of `update_sweep`: Siren. -/
def sweep8 (s : SysState) : SysState :=
  let mn := minDelay s.currentRange
  let mx := maxDelay s.currentRange
  let sc := add16 s.sirenCount 1
  let p1 := if s.currentFreqDelay = mn then mx else mn
  if 100 ≤ sc then
    { s with sirenCount := 0, currentFreqDelay := p1 }
  else
    { s with sirenCount := sc }

/-- `case 9` of `update_sweep`: Chirps. -/
def sweep9 (s : SysState) : SysState :=
  let mn := minDelay s.currentRange
  let mx := maxDelay s.currentRange
  if s.chirpState = 0 then
    if mn < s.currentFreqDelay then
      { s with currentFreqDelay := sub16 s.currentFreqDelay (speedSteps s.currentSpeed * 3) }
    else
      { s with chirpState := 1 }
  else
    let cc := add16 s.chirpCount 1
    if 300 < cc then
      { s with chirpCount := 0, chirpState := 0, currentFreqDelay := mx }
    else
      { s with chirpCount := cc }

/-- `case 10` of `update_sweep`: Random Walk.  `(simple_rand() % 5) - 2` is a
C `int` in `[-2, 2]`; adding it to the `uint16_t` period reduces mod 2^16,
written here as adding `r % 5 + 65534` (≡ `r % 5 - 2` mod 2^16).  The two
clamping `if`s of the source are kept sequential. -/
def sweep10 (s : SysState) : SysState :=
  let mn := minDelay s.currentRange
  let mx := maxDelay s.currentRange
  let wc := add16 s.walkCount 1
  if 20 ≤ wc then
    let d1 := simple_rand s.seed
    let p1 := (s.currentFreqDelay + d1.2 % 5 + 65534) % 65536
    let p2 := if p1 < mn then mn else p1
    let p3 := if mx < p2 then mx else p2
    { s with walkCount := 0, seed := d1.1, currentFreqDelay := p3 }
  else
    { s with walkCount := wc }

/-- The function `update_sweep` of the source: one tick of the Pattern Sweep
Engine.  The C `switch (currentPattern)` dispatches to the per-case functions
above; with no matching `case` (pattern ≥ 11, unreachable through the main
loop) nothing happens. -/
def update_sweep (s : SysState) : SysState :=
  if s.currentPattern = 0 then sweep0 s
  else if s.currentPattern = 1 then sweep1 s
  else if s.currentPattern = 2 then sweep2 s
  else if s.currentPattern = 3 then sweep3 s
  else if s.currentPattern = 4 then sweep4 s
  else if s.currentPattern = 5 then sweep5 s
  else if s.currentPattern = 6 then sweep6 s
  else if s.currentPattern = 7 then sweep7 s
  else if s.currentPattern = 8 then sweep8 s
  else if s.currentPattern = 9 then sweep9 s
  else if s.currentPattern = 10 then sweep10 s
  else s

/-- The function `generate_tone` of the source, acting on its `static`
`toneCounter` and the buzzer output bits. -/
def generate_tone (s : SysState) : SysState :=
  let tc := add16 s.toneCounter 1
  if s.currentFreqDelay ≤ tc then
    { s with toneCounter := 0, buzzer := !s.buzzer, buzzerComp := !s.buzzerComp }
  else
    { s with toneCounter := tc }

/-- The debounce interval of the source: `delay_ms(20)` between the first and
the second sample of a button level. -/
def debounce_delay : Nat := 20

/-- The functions `checkButton_PWR/PAT/SPD/RNG` of the source (all four are
textually identical up to the pin read).  The raw pin level is modelled as a
function of time `raw`; a call at time `t` samples `raw t`, waits
`debounce_delay` time units, re-reads `raw (t + debounce_delay)`, and commits
only if the level held.  Returns (new `lastState`, press event); the event is
`!current` because the buttons are active-low. -/
def checkButton (last : Bool) (raw : Nat → Bool) (t : Nat) : Bool × Bool :=
  let current := raw t
  if current ≠ last then
    if raw (t + debounce_delay) = current then (current, !current)
    else (last, false)
  else
    (last, false)

/-- The raw levels of the four buttons during one main-loop iteration
(`true` = released / high, `false` = pressed / low, per the active-low
wiring).  The level is taken to be stable across the iteration, so both
debounce samples of `checkButton` read the same value. -/
structure MainInputs where
  pwr : Bool
  pat : Bool
  spd : Bool
  rng : Bool
deriving DecidableEq

/-- One iteration of the `while(1)` loop of `main`: poll the four buttons in
source order, apply the confirmed events to the mode state, and — only if
`isActive` — run `generate_tone` and `update_sweep` once each.
`updateStatusLEDs` only drives LED pins and is outside the modelled state. -/
def mainStep (inp : MainInputs) (s : SysState) : SysState :=
  let c1 := checkButton s.lastPWR (fun _ => inp.pwr) 0
  let s1 := { s with lastPWR := c1.1 }
  let s2 :=
    if c1.2 then
      let act := !s1.isActive
      { s1 with isActive := act, buzzer := if act then s1.buzzer else false }
    else s1
  let c2 := checkButton s2.lastPAT (fun _ => inp.pat) 0
  let s3 := { s2 with lastPAT := c2.1 }
  let s4 :=
    if c2.2 then
      let p1 := (s3.currentPattern + 1) % 256
      { s3 with currentPattern := if 11 ≤ p1 then 0 else p1 }
    else s3
  let c3 := checkButton s4.lastSPD (fun _ => inp.spd) 0
  let s5 := { s4 with lastSPD := c3.1 }
  let s6 :=
    if c3.2 then
      let v1 := (s5.currentSpeed + 1) % 256
      { s5 with currentSpeed := if 5 ≤ v1 then 0 else v1 }
    else s5
  let c4 := checkButton s6.lastRNG (fun _ => inp.rng) 0
  let s7 := { s6 with lastRNG := c4.1 }
  let s8 :=
    if c4.2 then
      let nr := !s7.currentRange
      { s7 with currentRange := nr, currentFreqDelay := initDelay nr }
    else s7
  if s8.isActive then update_sweep (generate_tone s8) else s8

/-- The state right after the initialization code of `main` (and the C
initializers of the `static` locals): power off, low band, pattern 0,
speed 0, `currentFreqDelay = rangeParams[0][2] = 37`, PRNG seed 12345,
`freqStep = 1`, every counter 0, all button `lastState`s released, the
buzzer pins high from `P3 = 0xFF`. -/
def initState : SysState :=
  { isActive := false, currentRange := false, currentPattern := 0, currentSpeed := 0,
    sweepDirection := false, currentFreqDelay := initDelay false,
    pulseCount := 0, stepCount := 0, freqStep := 1, hbCount := 0, sirenCount := 0,
    chirpState := 0, chirpCount := 0, walkCount := 0, seed := 12345,
    toneCounter := 0, buzzer := true, buzzerComp := true,
    lastPWR := true, lastPAT := true, lastSPD := true, lastRNG := true }

/-- Running the main loop over a list of per-iteration button levels. -/
def mainRun (l : List MainInputs) (s : SysState) : SysState :=
  l.foldl (fun st i => mainStep i st) s

/-! ## General facts about the sweep engine -/

-- Neither the selected pattern nor the selected band is ever written by any
-- case of `update_sweep`.
theorem sweep0_pattern_eq (s : SysState) : (sweep0 s).currentPattern = s.currentPattern := by
  simp only [sweep0]
  all_goals split_ifs <;> rfl

theorem sweep1_pattern_eq (s : SysState) : (sweep1 s).currentPattern = s.currentPattern := by
  simp only [sweep1]
  all_goals split_ifs <;> rfl

theorem sweep2_pattern_eq (s : SysState) : (sweep2 s).currentPattern = s.currentPattern := by
  simp only [sweep2]
  all_goals split_ifs <;> rfl

theorem sweep3_pattern_eq (s : SysState) : (sweep3 s).currentPattern = s.currentPattern := by
  simp only [sweep3]
  all_goals split_ifs <;> rfl

theorem sweep4_pattern_eq (s : SysState) : (sweep4 s).currentPattern = s.currentPattern := by
  simp only [sweep4]

theorem sweep5_pattern_eq (s : SysState) : (sweep5 s).currentPattern = s.currentPattern := by
  simp only [sweep5]
  all_goals split_ifs <;> rfl

theorem sweep6_pattern_eq (s : SysState) : (sweep6 s).currentPattern = s.currentPattern := by
  simp only [sweep6]
  all_goals split_ifs <;> rfl

theorem sweep7_pattern_eq (s : SysState) : (sweep7 s).currentPattern = s.currentPattern := by
  simp only [sweep7]

theorem sweep8_pattern_eq (s : SysState) : (sweep8 s).currentPattern = s.currentPattern := by
  simp only [sweep8]
  all_goals split_ifs <;> rfl

theorem sweep9_pattern_eq (s : SysState) : (sweep9 s).currentPattern = s.currentPattern := by
  simp only [sweep9]
  all_goals split_ifs <;> rfl

theorem sweep10_pattern_eq (s : SysState) : (sweep10 s).currentPattern = s.currentPattern := by
  simp only [sweep10]
  all_goals split_ifs <;> rfl

theorem update_sweep_pattern_eq (s : SysState) :
    (update_sweep s).currentPattern = s.currentPattern := by
  unfold update_sweep
  repeat' split
  exacts [sweep0_pattern_eq s, sweep1_pattern_eq s, sweep2_pattern_eq s, sweep3_pattern_eq s,
    sweep4_pattern_eq s, sweep5_pattern_eq s, sweep6_pattern_eq s, sweep7_pattern_eq s,
    sweep8_pattern_eq s, sweep9_pattern_eq s, sweep10_pattern_eq s, rfl]

theorem sweep0_range_eq (s : SysState) : (sweep0 s).currentRange = s.currentRange := by
  simp only [sweep0]
  all_goals split_ifs <;> rfl

theorem sweep1_range_eq (s : SysState) : (sweep1 s).currentRange = s.currentRange := by
  simp only [sweep1]
  all_goals split_ifs <;> rfl

theorem sweep2_range_eq (s : SysState) : (sweep2 s).currentRange = s.currentRange := by
  simp only [sweep2]
  all_goals split_ifs <;> rfl

theorem sweep3_range_eq (s : SysState) : (sweep3 s).currentRange = s.currentRange := by
  simp only [sweep3]
  all_goals split_ifs <;> rfl

theorem sweep4_range_eq (s : SysState) : (sweep4 s).currentRange = s.currentRange := by
  simp only [sweep4]

theorem sweep5_range_eq (s : SysState) : (sweep5 s).currentRange = s.currentRange := by
  simp only [sweep5]
  all_goals split_ifs <;> rfl

theorem sweep6_range_eq (s : SysState) : (sweep6 s).currentRange = s.currentRange := by
  simp only [sweep6]
  all_goals split_ifs <;> rfl

theorem sweep7_range_eq (s : SysState) : (sweep7 s).currentRange = s.currentRange := by
  simp only [sweep7]

theorem sweep8_range_eq (s : SysState) : (sweep8 s).currentRange = s.currentRange := by
  simp only [sweep8]
  all_goals split_ifs <;> rfl

theorem sweep9_range_eq (s : SysState) : (sweep9 s).currentRange = s.currentRange := by
  simp only [sweep9]
  all_goals split_ifs <;> rfl

theorem sweep10_range_eq (s : SysState) : (sweep10 s).currentRange = s.currentRange := by
  simp only [sweep10]
  all_goals split_ifs <;> rfl

theorem update_sweep_range_eq (s : SysState) :
    (update_sweep s).currentRange = s.currentRange := by
  unfold update_sweep
  repeat' split
  exacts [sweep0_range_eq s, sweep1_range_eq s, sweep2_range_eq s, sweep3_range_eq s,
    sweep4_range_eq s, sweep5_range_eq s, sweep6_range_eq s, sweep7_range_eq s,
    sweep8_range_eq s, sweep9_range_eq s, sweep10_range_eq s, rfl]

theorem update_sweep_iter_pattern_eq (s : SysState) (n : Nat) :
    (update_sweep^[n] s).currentPattern = s.currentPattern := by
  induction n with
  | zero => rfl
  | succ n ih => rw [Function.iterate_succ_apply', update_sweep_pattern_eq, ih]

theorem update_sweep_iter_range_eq (s : SysState) (n : Nat) :
    (update_sweep^[n] s).currentRange = s.currentRange := by
  induction n with
  | zero => rfl
  | succ n ih => rw [Function.iterate_succ_apply', update_sweep_range_eq, ih]

-- The dispatch of `update_sweep`, one equation per pattern value.
theorem update_sweep_at0 (s : SysState) (h : s.currentPattern = 0) :
    update_sweep s = sweep0 s := by simp [update_sweep, h]

theorem update_sweep_at1 (s : SysState) (h : s.currentPattern = 1) :
    update_sweep s = sweep1 s := by simp [update_sweep, h]

theorem update_sweep_at2 (s : SysState) (h : s.currentPattern = 2) :
    update_sweep s = sweep2 s := by simp [update_sweep, h]

theorem update_sweep_at3 (s : SysState) (h : s.currentPattern = 3) :
    update_sweep s = sweep3 s := by simp [update_sweep, h]

theorem update_sweep_at4 (s : SysState) (h : s.currentPattern = 4) :
    update_sweep s = sweep4 s := by simp [update_sweep, h]

theorem update_sweep_at5 (s : SysState) (h : s.currentPattern = 5) :
    update_sweep s = sweep5 s := by simp [update_sweep, h]

theorem update_sweep_at6 (s : SysState) (h : s.currentPattern = 6) :
    update_sweep s = sweep6 s := by simp [update_sweep, h]

theorem update_sweep_at7 (s : SysState) (h : s.currentPattern = 7) :
    update_sweep s = sweep7 s := by simp [update_sweep, h]

theorem update_sweep_at8 (s : SysState) (h : s.currentPattern = 8) :
    update_sweep s = sweep8 s := by simp [update_sweep, h]

theorem update_sweep_at9 (s : SysState) (h : s.currentPattern = 9) :
    update_sweep s = sweep9 s := by simp [update_sweep, h]

theorem update_sweep_at10 (s : SysState) (h : s.currentPattern = 10) :
    update_sweep s = sweep10 s := by simp [update_sweep, h]

-- The speed table is positive and bounded by 8 on its real domain.
theorem speedSteps_bounds (v : Nat) (hv : v < 5) :
    1 ≤ speedSteps v ∧ speedSteps v ≤ 8 := by
  interval_cases v <;> simp [speedSteps]

/-! ## The PRNG (claim C6) -/

-- The low 15 bits of the seed stored by `simple_rand` follow the idealized
-- recurrence `(seed * 1103515245 + 12345) mod 32768`, for every start seed.
set_option maxHeartbeats 2000000 in
theorem simple_rand_seed_mod (s : Nat) :
    (simple_rand s).1 % 32768 = (s * 1103515245 + 12345) % 32768 := by
  simp only [simple_rand]
  repeat' split
  all_goals omega

-- The byte returned by `simple_rand` is the low byte of the new seed.
theorem simple_rand_byte (s : Nat) : (simple_rand s).2 = (simple_rand s).1 % 256 := by
  simp only [simple_rand]

/-- The seed stored after `n` calls of `simple_rand` from the fresh seed
12345 (the C `static` initializer). -/
def randSeedAfter (n : Nat) : Nat := ((fun t => (simple_rand t).1)^[n]) 12345

/-- The seed after `n` steps of the specification's idealized recurrence from
the same fresh seed 12345. -/
def specSeedAfter (n : Nat) : Nat := (rand_spec_seed^[n]) 12345

theorem specSeedAfter_lt (n : Nat) : specSeedAfter n < 32768 := by
  cases n with
  | zero => decide
  | succ n =>
    have h : specSeedAfter (n + 1) = rand_spec_seed (specSeedAfter n) := by
      simp [specSeedAfter, Function.iterate_succ_apply']
    rw [h, rand_spec_seed]
    exact Nat.mod_lt _ (by decide)

theorem randSeedAfter_mod (n : Nat) : randSeedAfter n % 32768 = specSeedAfter n := by
  induction n with
  | zero => decide
  | succ n ih =>
    have h1 : randSeedAfter (n + 1) = (simple_rand (randSeedAfter n)).1 := by
      simp [randSeedAfter, Function.iterate_succ_apply']
    have h2 : specSeedAfter (n + 1) = rand_spec_seed (specSeedAfter n) := by
      simp [specSeedAfter, Function.iterate_succ_apply']
    have h3 : Nat.ModEq 32768 (randSeedAfter n) (specSeedAfter n) := by
      unfold Nat.ModEq
      rw [ih, Nat.mod_eq_of_lt (specSeedAfter_lt n)]
    have h4 := (h3.mul_right 1103515245).add_right 12345
    rw [h1, h2, simple_rand_seed_mod, rand_spec_seed]
    exact h4

/-- Claim C6, counterexample.  The claim says the stored seed follows
`seed = (seed * 1103515245 + 12345) mod 32768`; on the very first call from
the fresh seed 12345 the C code stores 38526 (bit 15 set), not the claimed
`(12345 * 1103515245 + 12345) mod 32768 = 5758`: the product overflows the
signed 32-bit `long` and C's truncated `%` then yields a negative remainder,
which the conversion back to `uint16_t` maps to `65536 - 27010 = 38526`. -/
theorem claim_C6_cex :
    (simple_rand 12345).1 = 38526 ∧ rand_spec_seed 12345 = 5758 ∧
    (simple_rand 12345).1 ≠ rand_spec_seed 12345 ∧
    32768 ≤ (simple_rand 12345).1 := by decide

/-- Claim C6, amended.  The stored seed agrees with the specification's
recurrence `seed = (seed * 1103515245 + 12345) mod 32768` (from seed 12345)
in its low 15 bits — it may additionally carry bit 15 when the signed 32-bit
intermediate is negative — and the byte returned on call `n + 1` is exactly
the low byte of the idealized recurrence's seed.  In particular the returned
byte sequence is a fixed function of the number of prior calls, identical on
every run from a fresh seed (both sides are pure functions of `n`). -/
theorem claim_C6_amended (n : Nat) :
    randSeedAfter n % 32768 = specSeedAfter n ∧
    (simple_rand (randSeedAfter n)).2 = rand_spec_seed (specSeedAfter n) % 256 := by
  refine ⟨randSeedAfter_mod n, ?_⟩
  have h1 : (simple_rand (randSeedAfter n)).1 = randSeedAfter (n + 1) := by
    simp [randSeedAfter, Function.iterate_succ_apply']
  have h2 : rand_spec_seed (specSeedAfter n) = specSeedAfter (n + 1) := by
    simp [specSeedAfter, Function.iterate_succ_apply']
  rw [simple_rand_byte, h1, h2]
  have h4 := randSeedAfter_mod (n + 1)
  omega

/-! ## The debounced input controller (claim C5) -/

/-- Claim C5.  For a button channel in stable state `last`:
a raw flip at time `t` that has reverted by the re-read at
`t + debounce_delay` yields no press event and leaves `last` unchanged;
a flip to low (pressed, active-low) that holds through the window commits
and yields a press event — and every later poll at the low level yields no
further event, so the press fires exactly once; a flip to high (release)
that holds commits and yields no event, and later polls at the high level
stay silent. -/
theorem claim_C5 (raw : Nat → Bool) (t : Nat) (last : Bool) :
    (raw t ≠ last → raw (t + debounce_delay) ≠ raw t →
      checkButton last raw t = (last, false)) ∧
    (last = true → raw t = false → raw (t + debounce_delay) = false →
      checkButton last raw t = (false, true)) ∧
    (∀ u, raw u = false → checkButton false raw u = (false, false)) ∧
    (last = false → raw t = true → raw (t + debounce_delay) = true →
      checkButton last raw t = (true, false)) ∧
    (∀ u, raw u = true → checkButton true raw u = (true, false)) := by
  refine ⟨?_, ?_, ?_, ?_, ?_⟩
  · intro h1 h2
    simp [checkButton, h1, h2]
  · intro h1 h2 h3
    subst h1
    simp [checkButton, h2, h3]
  · intro u hu
    simp [checkButton, hu]
  · intro h1 h2 h3
    subst h1
    simp [checkButton, h2, h3]
  · intro u hu
    simp [checkButton, hu]

/-- Witness for C5 at a concrete held press: channel stable-high, raw level
low at both samples. -/
theorem claim_C5_witness :
    (true = true) ∧ ((fun _ : Nat => false) 0 = false) ∧
    checkButton true (fun _ => false) 0 = (false, true) :=
  ⟨rfl, rfl, (claim_C5 (fun _ => false) 0 true).2.1 rfl rfl rfl⟩

/-! ## The end-to-end power-on sweep scenario (claim C2) -/

/-- The scenario's starting mode state right after the power press has been
applied: `{is_active = true, band = Low, pattern = 0, speed = 0,
period = 37}` with every pattern counter at its C initializer. -/
def scenarioState : SysState := { initState with isActive := true }

/-- Button levels of a main-loop iteration in which only the power button is
held down (levels are active-low). -/
def pressPWR : MainInputs := { pwr := false, pat := true, spd := true, rng := true }

/-- Button levels of an idle main-loop iteration (all four buttons released). -/
def idleInputs : MainInputs := { pwr := true, pat := true, spd := true, rng := true }

/-- Button levels with only the pattern button held down. -/
def pressPAT : MainInputs := { pwr := true, pat := false, spd := true, rng := true }

/-- Button levels with only the speed button held down. -/
def pressSPD : MainInputs := { pwr := true, pat := true, spd := false, rng := true }

/-- Button levels with only the range button held down. -/
def pressRNG : MainInputs := { pwr := true, pat := true, spd := true, rng := false }

/-- Claim C2, counterexample.  The claim says 13 advance calls drive the
period from 37 down to `min = 25` and the 14th resets it to `max = 50`;
on the code, the 13th call already finds `period = 25` (reached by the 12th)
and resets it to 50, so after 13 calls the period is 50, not 25, and the
14th call yields 49, not 50. -/
theorem claim_C2_cex :
    (update_sweep^[13] scenarioState).currentFreqDelay = 50 ∧
    (update_sweep^[13] scenarioState).currentFreqDelay ≠ minDelay false ∧
    (update_sweep^[14] scenarioState).currentFreqDelay = 49 ∧
    (update_sweep^[14] scenarioState).currentFreqDelay ≠ maxDelay false := by decide

/-- Claim C2, amended.  From the boot state, a confirmed power press (a held
low level on the power button) sets `is_active = true`; from the scenario
state `{is_active = true, band = Low, pattern = 0, speed = 0, period = 37}`,
the first 12 advance calls with step 1 drive the period from 37 down to
`min = 25` (after `k ≤ 12` calls the period is `37 - k`), and the 13th call
resets it to `max = 50`. -/
theorem claim_C2_amended :
    (mainStep pressPWR initState).isActive = true ∧
    (∀ k, k ≤ 12 → (update_sweep^[k] scenarioState).currentFreqDelay = 37 - k) ∧
    (update_sweep^[13] scenarioState).currentFreqDelay = maxDelay false := by
  refine ⟨by decide, ?_, by decide⟩
  decide

/-- Witness for C2 at `k = 12`: the 12th call reaches the band minimum 25. -/
theorem claim_C2_witness :
    12 ≤ 12 ∧ (update_sweep^[12] scenarioState).currentFreqDelay = 37 - 12 :=
  ⟨Nat.le_refl 12, claim_C2_amended.2.1 12 (Nat.le_refl 12)⟩

/-! ## Persistence of the pattern-local counters (claim C4) -/

/-- A state with pattern 0 selected and every pattern-local counter holding a
nonzero mid-cycle value. -/
def persistState : SysState :=
  { initState with
      currentPattern := 0, pulseCount := 3, stepCount := 4, hbCount := 7,
      sirenCount := 11, chirpState := 1, chirpCount := 13, walkCount := 17 }

/-- Claim C4, counterexample.  The claim says all pattern-local counters
"keep advancing regardless of which pattern is currently selected"; with
pattern 0 selected, one engine tick leaves the heartbeat, pulse, walk and
chirp counters exactly where they were — they do not advance. -/
theorem claim_C4_cex :
    persistState.currentPattern = 0 ∧
    (update_sweep persistState).hbCount = persistState.hbCount ∧
    (update_sweep persistState).pulseCount = persistState.pulseCount ∧
    (update_sweep persistState).walkCount = persistState.walkCount ∧
    (update_sweep persistState).chirpCount = persistState.chirpCount ∧
    (update_sweep persistState).sirenCount = persistState.sirenCount ∧
    (update_sweep persistState).stepCount = persistState.stepCount := by decide

set_option maxHeartbeats 4000000 in
/-- Claim C4, amended.  Every pattern-local counter (pulse, stepped, triangle
direction, heartbeat, siren, chirp state and counter, walk) persists
unchanged — neither reset nor advanced — across every engine tick in which
its own pattern is not the selected one; re-selecting the pattern therefore
resumes it mid-cycle from the persisted counters. -/
theorem claim_C4_amended (s : SysState) :
    (s.currentPattern ≠ 4 → (update_sweep s).pulseCount = s.pulseCount) ∧
    (s.currentPattern ≠ 5 → (update_sweep s).stepCount = s.stepCount) ∧
    (s.currentPattern ≠ 6 → (update_sweep s).freqStep = s.freqStep) ∧
    (s.currentPattern ≠ 7 → (update_sweep s).hbCount = s.hbCount) ∧
    (s.currentPattern ≠ 8 → (update_sweep s).sirenCount = s.sirenCount) ∧
    (s.currentPattern ≠ 9 → (update_sweep s).chirpState = s.chirpState) ∧
    (s.currentPattern ≠ 9 → (update_sweep s).chirpCount = s.chirpCount) ∧
    (s.currentPattern ≠ 10 → (update_sweep s).walkCount = s.walkCount) := by
  refine ⟨?_, ?_, ?_, ?_, ?_, ?_, ?_, ?_⟩ <;>
    intro h <;> unfold update_sweep <;> repeat' split
  all_goals
    first
      | (exfalso; omega)
      | (simp only [sweep0, sweep1, sweep2, sweep3, sweep4, sweep5, sweep6, sweep7,
          sweep8, sweep9, sweep10]
         all_goals split_ifs <;> rfl)

/-- Witness for C4: with pattern 0 selected, the heartbeat counter persists. -/
theorem claim_C4_witness :
    persistState.currentPattern ≠ 7 ∧
    (update_sweep persistState).hbCount = persistState.hbCount :=
  ⟨by decide, (claim_C4_amended persistState).2.2.2.1 (by decide)⟩

/-! ## The period-range invariant (claim C1) -/

/-- A concrete run of the main loop from the boot state: one iteration with
the speed button held (speed becomes 1, step 2), one with the power button
held (device activates and the engine starts stepping), then 19 idle
iterations.  The 20 engine ticks take the period 37 → 25 → 50 → … → 26 → 24. -/
def c1Trace : List MainInputs := pressSPD :: pressPWR :: List.replicate 19 idleInputs

set_option maxRecDepth 100000 in
/-- Claim C1, counterexample.  The state reached from boot by `c1Trace` is a
reachable state of the running system whose period, 24, lies strictly below
`band.min = 25` while the selected pattern is 0 (Up Sweep) — not one of the
patterns 6 and 10 the claim excepts — and the out-of-range period is not
clamped back before the Tone Generator's next read: the next loop iteration
calls `generate_tone` (which reads `currentFreqDelay`) before `update_sweep`
can change it. -/
theorem claim_C1_cex :
    (mainRun c1Trace initState).currentFreqDelay = 24 ∧
    (mainRun c1Trace initState).currentFreqDelay <
      minDelay (mainRun c1Trace initState).currentRange ∧
    (mainRun c1Trace initState).currentPattern = 0 ∧
    (mainRun c1Trace initState).currentSpeed = 1 ∧
    (mainRun c1Trace initState).isActive = true := by decide

/-! ## Wraparound of the period arithmetic (claim C3) -/

/-- A concrete run of the main loop from the boot state: nine pattern
presses (pattern 9, Chirps), four speed presses (speed 4, step 8), one range
press (High band, period reset to 13), then one power press.  The activating
iteration immediately runs the engine once: `13 - 24` on the `uint16_t`
period wraps to 65525. -/
def c3Trace : List MainInputs :=
  (List.replicate 9 [pressPAT, idleInputs]).flatten ++
  (List.replicate 4 [pressSPD, idleInputs]).flatten ++
  [pressRNG, idleInputs, pressPWR]

set_option maxRecDepth 100000 in
/-- Claim C3, counterexample.  In the reachable state with pattern 9
(Chirps), High band `(min, max) = (9, 18)` and speed step 8, the falling
branch computes `13 - 3*8` on the unsigned 16-bit period: the subtraction
underflows below zero and wraps to `13 + 2^16 - 24 = 65525`, far above
`band.max = 18` — not an intended clamped result. -/
theorem claim_C3_cex :
    (mainRun c3Trace initState).currentFreqDelay = 65525 ∧
    (mainRun c3Trace initState).currentPattern = 9 ∧
    (mainRun c3Trace initState).currentSpeed = 4 ∧
    (mainRun c3Trace initState).currentRange = true ∧
    maxDelay true < (mainRun c3Trace initState).currentFreqDelay ∧
    (mainRun c3Trace initState).isActive = true := by decide

-- The two possible (min, max) pairs, as numeric facts usable by `omega`.
theorem band_cases (s : SysState) :
    (minDelay s.currentRange = 25 ∧ maxDelay s.currentRange = 50) ∨
    (minDelay s.currentRange = 9 ∧ maxDelay s.currentRange = 18) := by
  cases s.currentRange
  · exact Or.inl ⟨rfl, rfl⟩
  · exact Or.inr ⟨rfl, rfl⟩

-- One Up Sweep step from an in-range period undershoots `min` by less than
-- the step (at most 7) and never exceeds `max`.
theorem sweep0_bound (s : SysState)
    (h1 : minDelay s.currentRange ≤ s.currentFreqDelay)
    (h2 : s.currentFreqDelay ≤ maxDelay s.currentRange)
    (hv : s.currentSpeed < 5) :
    minDelay s.currentRange ≤ (sweep0 s).currentFreqDelay + 8 ∧
    (sweep0 s).currentFreqDelay ≤ maxDelay s.currentRange := by
  have hs := speedSteps_bounds s.currentSpeed hv
  obtain ⟨hmn, hmx⟩ | ⟨hmn, hmx⟩ := band_cases s <;>
    simp only [hmn, hmx] at h1 h2 ⊢ <;>
    simp only [sweep0, sub16, add16, hmn, hmx] <;>
    repeat' split
  all_goals try dsimp only
  all_goals omega

-- One Down Sweep step from an in-range period overshoots `max` by less than
-- the step and never goes below `min`.
theorem sweep1_bound (s : SysState)
    (h1 : minDelay s.currentRange ≤ s.currentFreqDelay)
    (h2 : s.currentFreqDelay ≤ maxDelay s.currentRange)
    (hv : s.currentSpeed < 5) :
    minDelay s.currentRange ≤ (sweep1 s).currentFreqDelay ∧
    (sweep1 s).currentFreqDelay ≤ maxDelay s.currentRange + 8 := by
  have hs := speedSteps_bounds s.currentSpeed hv
  obtain ⟨hmn, hmx⟩ | ⟨hmn, hmx⟩ := band_cases s <;>
    simp only [hmn, hmx] at h1 h2 ⊢ <;>
    simp only [sweep1, sub16, add16, hmn, hmx] <;>
    repeat' split
  all_goals try dsimp only
  all_goals omega

-- One Zig-Zag step from an in-range period stays within one step of either
-- bound.
theorem sweep2_bound (s : SysState)
    (h1 : minDelay s.currentRange ≤ s.currentFreqDelay)
    (h2 : s.currentFreqDelay ≤ maxDelay s.currentRange)
    (hv : s.currentSpeed < 5) :
    minDelay s.currentRange ≤ (sweep2 s).currentFreqDelay + 8 ∧
    (sweep2 s).currentFreqDelay ≤ maxDelay s.currentRange + 8 := by
  have hs := speedSteps_bounds s.currentSpeed hv
  obtain ⟨hmn, hmx⟩ | ⟨hmn, hmx⟩ := band_cases s <;>
    simp only [hmn, hmx] at h1 h2 ⊢ <;>
    simp only [sweep2, sub16, add16, hmn, hmx] <;>
    repeat' split
  all_goals try dsimp only
  all_goals omega

-- One Random step keeps an in-range period in range (a redraw lands in
-- `[min, max]`, no redraw keeps the period).
theorem sweep3_bound (s : SysState)
    (h1 : minDelay s.currentRange ≤ s.currentFreqDelay)
    (h2 : s.currentFreqDelay ≤ maxDelay s.currentRange) :
    minDelay s.currentRange ≤ (sweep3 s).currentFreqDelay ∧
    (sweep3 s).currentFreqDelay ≤ maxDelay s.currentRange := by
  obtain ⟨hmn, hmx⟩ | ⟨hmn, hmx⟩ := band_cases s <;>
    simp only [hmn, hmx] at h1 h2 ⊢ <;>
    simp only [sweep3, hmn, hmx] <;>
    repeat' split
  all_goals try dsimp only
  all_goals omega

-- The Pulse pattern does not touch the period at all.
theorem sweep4_period_eq (s : SysState) :
    (sweep4 s).currentFreqDelay = s.currentFreqDelay := by
  simp only [sweep4]

-- One Stepped step keeps an in-range period in range.
theorem sweep5_bound (s : SysState)
    (h1 : minDelay s.currentRange ≤ s.currentFreqDelay)
    (h2 : s.currentFreqDelay ≤ maxDelay s.currentRange)
    (hv : s.currentSpeed < 5) :
    minDelay s.currentRange ≤ (sweep5 s).currentFreqDelay ∧
    (sweep5 s).currentFreqDelay ≤ maxDelay s.currentRange := by
  have hs := speedSteps_bounds s.currentSpeed hv
  obtain ⟨hmn, hmx⟩ | ⟨hmn, hmx⟩ := band_cases s <;>
    simp only [hmn, hmx] at h1 h2 ⊢ <;>
    simp only [sweep5, sub16, add16, hmn, hmx] <;>
    repeat' split
  all_goals try dsimp only
  all_goals omega

-- One Triangle step from an in-range period moves by exactly one signed
-- step, hence stays within one step (at most 8) of either bound.
theorem sweep6_bound (s : SysState)
    (h1 : minDelay s.currentRange ≤ s.currentFreqDelay)
    (h2 : s.currentFreqDelay ≤ maxDelay s.currentRange)
    (hv : s.currentSpeed < 5)
    (hf : s.freqStep = 1 ∨ s.freqStep = -1) :
    minDelay s.currentRange ≤ (sweep6 s).currentFreqDelay + 8 ∧
    (sweep6 s).currentFreqDelay ≤ maxDelay s.currentRange + 8 := by
  have hs := speedSteps_bounds s.currentSpeed hv
  obtain hf1 | hf1 := hf <;>
    obtain ⟨hmn, hmx⟩ | ⟨hmn, hmx⟩ := band_cases s <;>
    simp only [hmn, hmx] at h1 h2 ⊢ <;>
    simp only [sweep6, wrap16s, hf1, hmn, hmx] <;>
    repeat' split
  all_goals try dsimp only
  all_goals omega

-- One Heartbeat step always lands in `[min, max]` (it writes `min + 2`,
-- `min + 1` or `max`, and `min + 2 ≤ max` in both bands).
theorem sweep7_bound (s : SysState) :
    minDelay s.currentRange ≤ (sweep7 s).currentFreqDelay ∧
    (sweep7 s).currentFreqDelay ≤ maxDelay s.currentRange := by
  obtain ⟨hmn, hmx⟩ | ⟨hmn, hmx⟩ := band_cases s <;>
    simp only [hmn, hmx] <;>
    simp only [sweep7, add16, hmn, hmx] <;>
    repeat' split
  all_goals omega

-- One Siren step keeps an in-range period in range (a toggle writes `min`
-- or `max`).
theorem sweep8_bound (s : SysState)
    (h1 : minDelay s.currentRange ≤ s.currentFreqDelay)
    (h2 : s.currentFreqDelay ≤ maxDelay s.currentRange) :
    minDelay s.currentRange ≤ (sweep8 s).currentFreqDelay ∧
    (sweep8 s).currentFreqDelay ≤ maxDelay s.currentRange := by
  obtain ⟨hmn, hmx⟩ | ⟨hmn, hmx⟩ := band_cases s <;>
    simp only [hmn, hmx] at h1 h2 ⊢ <;>
    simp only [sweep8, add16, hmn, hmx] <;>
    repeat' split
  all_goals try dsimp only
  all_goals omega

-- One Random Walk step keeps an in-range period in range: the signed
-- nudge is clamped to `[min, max]` within the same call.
theorem sweep10_bound (s : SysState)
    (h1 : minDelay s.currentRange ≤ s.currentFreqDelay)
    (h2 : s.currentFreqDelay ≤ maxDelay s.currentRange) :
    minDelay s.currentRange ≤ (sweep10 s).currentFreqDelay ∧
    (sweep10 s).currentFreqDelay ≤ maxDelay s.currentRange := by
  obtain ⟨hmn, hmx⟩ | ⟨hmn, hmx⟩ := band_cases s <;>
    simp only [hmn, hmx] at h1 h2 ⊢ <;>
    simp only [sweep10, add16, hmn, hmx] <;>
    repeat' split
  all_goals try dsimp only
  all_goals omega

-- With no matching case (pattern ≥ 11), `update_sweep` is the identity.
theorem update_sweep_default (s : SysState) (h : 11 ≤ s.currentPattern) :
    update_sweep s = s := by
  unfold update_sweep
  iterate 11 rw [if_neg (show ¬_ from by omega)]

/-- Claim C1, amended.  For every state of the running system whose period
lies in `[band.min, band.max]` (with a table speed and a ±1 triangle
direction), one engine tick keeps the period inside `[band.min, band.max]`
when the selected pattern is 3, 4, 5, 7, 8 or 10 — pattern 10's overshoot is
clamped within the same call — while patterns 0, 1, 2 and 6 may transiently
overshoot a bound by at most the step size (≤ 8); the overshoot persists
until that pattern's own reset/flip rule corrects it on a later tick, and is
visible to the Tone Generator's intervening read (claim counterexample);
pattern 9 can leave the range much further (see C3). -/
theorem claim_C1_amended (s : SysState)
    (h1 : minDelay s.currentRange ≤ s.currentFreqDelay)
    (h2 : s.currentFreqDelay ≤ maxDelay s.currentRange)
    (hv : s.currentSpeed < 5)
    (hf : s.freqStep = 1 ∨ s.freqStep = -1) :
    ((s.currentPattern = 3 ∨ s.currentPattern = 4 ∨ s.currentPattern = 5 ∨
        s.currentPattern = 7 ∨ s.currentPattern = 8 ∨ s.currentPattern = 10) →
      minDelay s.currentRange ≤ (update_sweep s).currentFreqDelay ∧
      (update_sweep s).currentFreqDelay ≤ maxDelay s.currentRange) ∧
    ((s.currentPattern = 0 ∨ s.currentPattern = 1 ∨ s.currentPattern = 2 ∨
        s.currentPattern = 6) →
      minDelay s.currentRange ≤ (update_sweep s).currentFreqDelay + 8 ∧
      (update_sweep s).currentFreqDelay ≤ maxDelay s.currentRange + 8) := by
  constructor
  · rintro (h | h | h | h | h | h)
    · rw [update_sweep_at3 s h]
      exact sweep3_bound s h1 h2
    · rw [update_sweep_at4 s h, sweep4_period_eq]
      exact ⟨h1, h2⟩
    · rw [update_sweep_at5 s h]
      exact sweep5_bound s h1 h2 hv
    · rw [update_sweep_at7 s h]
      exact sweep7_bound s
    · rw [update_sweep_at8 s h]
      exact sweep8_bound s h1 h2
    · rw [update_sweep_at10 s h]
      exact sweep10_bound s h1 h2
  · rintro (h | h | h | h)
    · rw [update_sweep_at0 s h]
      have hb := sweep0_bound s h1 h2 hv
      omega
    · rw [update_sweep_at1 s h]
      have hb := sweep1_bound s h1 h2 hv
      omega
    · rw [update_sweep_at2 s h]
      exact sweep2_bound s h1 h2 hv
    · rw [update_sweep_at6 s h]
      exact sweep6_bound s h1 h2 hv hf

/-- Witness for C1 at the boot state made active in pattern 0: one tick from
period 37 stays within the widened bounds. -/
theorem claim_C1_witness :
    minDelay initState.currentRange ≤ initState.currentFreqDelay ∧
    initState.currentFreqDelay ≤ maxDelay initState.currentRange ∧
    initState.currentSpeed < 5 ∧
    (minDelay initState.currentRange ≤ (update_sweep initState).currentFreqDelay + 8 ∧
      (update_sweep initState).currentFreqDelay ≤ maxDelay initState.currentRange + 8) :=
  ⟨by decide, by decide, by decide,
    (claim_C1_amended initState (by decide) (by decide) (by decide)
      (Or.inl rfl)).2 (Or.inl rfl)⟩

/-- Claim C3, amended.  For every pattern other than 0, 1 and 9 (any band,
any table speed, triangle direction ±1), one engine step on a period inside
`[band.min, band.max]` performs no mod-2^16 wraparound: the resulting period
stays within `[band.min - 8, band.max + 8]` (a wrapped value would exceed
65000), and in particular the Random Walk addition of the signed nudge is
clamped back into `[band.min, band.max]` in the same call.  The Chirps
(pattern 9) subtraction of `3 * step`, however, does underflow below zero
and wrap (claim counterexample: High band, step 8, period 13 wraps to
65525), which is why pattern 9 must be excluded. -/
theorem claim_C3_amended (s : SysState)
    (h1 : minDelay s.currentRange ≤ s.currentFreqDelay)
    (h2 : s.currentFreqDelay ≤ maxDelay s.currentRange)
    (hv : s.currentSpeed < 5)
    (hf : s.freqStep = 1 ∨ s.freqStep = -1)
    (hp0 : s.currentPattern ≠ 0) (hp1 : s.currentPattern ≠ 1)
    (hp9 : s.currentPattern ≠ 9) :
    minDelay s.currentRange ≤ (update_sweep s).currentFreqDelay + 8 ∧
    (update_sweep s).currentFreqDelay ≤ maxDelay s.currentRange + 8 := by
  have hd : s.currentPattern = 2 ∨ s.currentPattern = 3 ∨ s.currentPattern = 4 ∨
      s.currentPattern = 5 ∨ s.currentPattern = 6 ∨ s.currentPattern = 7 ∨
      s.currentPattern = 8 ∨ s.currentPattern = 10 ∨ 11 ≤ s.currentPattern := by
    omega
  rcases hd with h | h | h | h | h | h | h | h | h
  · rw [update_sweep_at2 s h]
    have hb := sweep2_bound s h1 h2 hv
    omega
  · rw [update_sweep_at3 s h]
    have hb := sweep3_bound s h1 h2
    omega
  · rw [update_sweep_at4 s h, sweep4_period_eq]
    omega
  · rw [update_sweep_at5 s h]
    have hb := sweep5_bound s h1 h2 hv
    omega
  · rw [update_sweep_at6 s h]
    have hb := sweep6_bound s h1 h2 hv hf
    omega
  · rw [update_sweep_at7 s h]
    have hb := sweep7_bound s
    omega
  · rw [update_sweep_at8 s h]
    have hb := sweep8_bound s h1 h2
    omega
  · rw [update_sweep_at10 s h]
    have hb := sweep10_bound s h1 h2
    omega
  · rw [update_sweep_default s h]
    omega

/-- A state with the Zig-Zag pattern selected, used as the C3 witness
input. -/
def zigzagState : SysState := { initState with currentPattern := 2 }

/-- Witness for C3 at a concrete Zig-Zag state: one tick from period 37 in
the Low band performs no wraparound. -/
theorem claim_C3_witness :
    minDelay zigzagState.currentRange ≤ zigzagState.currentFreqDelay ∧
    zigzagState.currentFreqDelay ≤ maxDelay zigzagState.currentRange ∧
    zigzagState.currentSpeed < 5 ∧
    zigzagState.currentPattern ≠ 0 ∧ zigzagState.currentPattern ≠ 1 ∧
    zigzagState.currentPattern ≠ 9 ∧
    (minDelay zigzagState.currentRange ≤ (update_sweep zigzagState).currentFreqDelay + 8 ∧
      (update_sweep zigzagState).currentFreqDelay ≤ maxDelay zigzagState.currentRange + 8) :=
  ⟨by decide, by decide, by decide, by decide, by decide, by decide,
    claim_C3_amended zigzagState (by decide) (by decide) (by decide) (Or.inl rfl)
      (by decide) (by decide) (by decide)⟩

/-! ## The Up Sweep sawtooth (claim C7) -/

/-- The engine state at the start of the claimed sawtooth: pattern 0
selected, band `r`, speed index `v`, period at `band.max`. -/
def p0State (r : Bool) (v : Nat) : SysState :=
  { initState with currentRange := r, currentSpeed := v, currentFreqDelay := maxDelay r }

/-- The period after `n` engine ticks of the Up Sweep run. -/
def p0Seq (r : Bool) (v n : Nat) : Nat :=
  (update_sweep^[n] (p0State r v)).currentFreqDelay

/-- The claimed sawtooth cycle length `⌈(max - min) / step⌉ + 1`, written
with the Nat ceiling `(max - min + (step - 1)) / step`. -/
def sawtoothLen (r : Bool) (v : Nat) : Nat :=
  (maxDelay r - minDelay r + (speedSteps v - 1)) / speedSteps v + 1

-- Once one full cycle returns to the start state, the period sequence is
-- periodic with that cycle length.
theorem p0_periodic_of_fix (r : Bool) (v : Nat)
    (h : update_sweep^[sawtoothLen r v] (p0State r v) = p0State r v) (n : Nat) :
    p0Seq r v (n + sawtoothLen r v) = p0Seq r v n := by
  unfold p0Seq
  rw [Function.iterate_add_apply, h]

/-- Claim C7.  For every band and every table speed step `s`, iterating
pattern 0 from `period = band.max`: every tick of the first
`⌈(max - min)/s⌉` finds the period above `band.min` and decreases it by
exactly `s`; the tick `⌈(max - min)/s⌉` leaves the period at or below
`band.min`; the next tick resets it to `band.max`; the period sequence is
periodic with cycle length `L = ⌈(max - min)/s⌉ + 1`; and no `0 < k < L` is
a period of the sequence (the cycle length is exactly `L`). -/
theorem claim_C7 (r : Bool) (v : Nat) (hv : v < 5) :
    (∀ k, k < sawtoothLen r v - 1 →
      minDelay r < p0Seq r v k ∧ p0Seq r v (k + 1) = p0Seq r v k - speedSteps v) ∧
    p0Seq r v (sawtoothLen r v - 1) ≤ minDelay r ∧
    p0Seq r v (sawtoothLen r v) = maxDelay r ∧
    (∀ n, p0Seq r v (n + sawtoothLen r v) = p0Seq r v n) ∧
    (∀ k, k < sawtoothLen r v → 0 < k → p0Seq r v k ≠ p0Seq r v 0) := by
  cases r <;> interval_cases v <;>
    exact ⟨by decide, by decide, by decide, p0_periodic_of_fix _ _ (by decide), by decide⟩

/-- Witness for C7 in the Low band at speed index 1 (step 2): after one full
cycle the period is back at `band.max`. -/
theorem claim_C7_witness :
    (1 : Nat) < 5 ∧ p0Seq false 1 (sawtoothLen false 1) = maxDelay false :=
  ⟨by decide, (claim_C7 false 1 (by decide)).2.2.1⟩

/-! ## The Heartbeat pattern (claim C8) -/

/-- The value the Heartbeat case writes into the period as a function of the
(post-increment) phase counter: the if-chain of `case 7`. -/
def hbVal (r : Bool) (v : Nat) : Nat :=
  if v < 100 then minDelay r + 2
  else if v < 150 then maxDelay r
  else if v < 250 then minDelay r + 1
  else maxDelay r

-- One Heartbeat step advances the phase counter mod 600 and writes the
-- phase-indexed period value.
theorem sweep7_step (s : SysState) (hhb : s.hbCount < 600) :
    sweep7 s = { s with
      hbCount := (s.hbCount + 1) % 600,
      currentFreqDelay := hbVal s.currentRange ((s.hbCount + 1) % 600) } := by
  simp only [sweep7, add16, hbVal]
  have e1 : (s.hbCount + 1) % 65536 = s.hbCount + 1 := Nat.mod_eq_of_lt (by omega)
  rw [e1]
  have e2 : (if 600 ≤ s.hbCount + 1 then 0 else s.hbCount + 1) = (s.hbCount + 1) % 600 := by
    split_ifs <;> omega
  rw [e2]

-- The closed form of the Heartbeat run: after `t ≥ 1` ticks the phase
-- counter is `t mod 600` and the period is the phase-indexed value.
theorem sweep7_iter (s : SysState) (h7 : s.currentPattern = 7) (h0 : s.hbCount = 0)
    (t : Nat) (ht : 1 ≤ t) :
    update_sweep^[t] s = { s with
      hbCount := t % 600,
      currentFreqDelay := hbVal s.currentRange (t % 600) } := by
  induction t with
  | zero => omega
  | succ t ih =>
    cases Nat.eq_zero_or_pos t with
    | inl h =>
      subst h
      have h1 : update_sweep^[0 + 1] s = update_sweep s := by
        rw [Function.iterate_one]
      rw [h1, update_sweep_at7 s h7, sweep7_step s (by omega)]
      rw [h0]
    | inr h =>
      have H := ih h
      rw [Function.iterate_succ_apply', H]
      have h7b : ({ s with
          hbCount := t % 600,
          currentFreqDelay := hbVal s.currentRange (t % 600) } : SysState).currentPattern = 7 := h7
      have hlt : ({ s with
          hbCount := t % 600,
          currentFreqDelay := hbVal s.currentRange (t % 600) } : SysState).hbCount < 600 := by
        dsimp only
        omega
      rw [update_sweep_at7 _ h7b, sweep7_step _ hlt]
      have e : (t % 600 + 1) % 600 = (t + 1) % 600 := by omega
      dsimp only
      rw [e]

/-- Claim C8.  Pattern 7 (Heartbeat), iterated from its initial phase
counter 0: after `t ≥ 1` ticks the phase counter is `t mod 600`, and the
period holds `min + 2` on phases `[0, 100)`, `max` on `[100, 150)`,
`min + 1` on `[150, 250)` and `max` on `[250, 600)`; the whole engine state
is periodic with period 600 ticks. -/
theorem claim_C8 (s : SysState) (h7 : s.currentPattern = 7) (h0 : s.hbCount = 0)
    (t : Nat) (ht : 1 ≤ t) :
    (update_sweep^[t] s).hbCount = t % 600 ∧
    (t % 600 < 100 →
      (update_sweep^[t] s).currentFreqDelay = minDelay s.currentRange + 2) ∧
    (100 ≤ t % 600 → t % 600 < 150 →
      (update_sweep^[t] s).currentFreqDelay = maxDelay s.currentRange) ∧
    (150 ≤ t % 600 → t % 600 < 250 →
      (update_sweep^[t] s).currentFreqDelay = minDelay s.currentRange + 1) ∧
    (250 ≤ t % 600 →
      (update_sweep^[t] s).currentFreqDelay = maxDelay s.currentRange) ∧
    update_sweep^[t + 600] s = update_sweep^[t] s := by
  have H := sweep7_iter s h7 h0 t ht
  have H2 := sweep7_iter s h7 h0 (t + 600) (by omega)
  rw [H, H2]
  have e : (t + 600) % 600 = t % 600 := by omega
  rw [e]
  dsimp only
  refine ⟨rfl, ?_, ?_, ?_, ?_, rfl⟩ <;>
    (intros; simp only [hbVal]; split_ifs <;> omega)

/-- The boot state with the Heartbeat pattern selected, the C8 witness
input. -/
def hbState : SysState := { initState with currentPattern := 7 }

/-- Witness for C8 at `t = 1`: after one tick the phase counter is 1. -/
theorem claim_C8_witness :
    hbState.currentPattern = 7 ∧ hbState.hbCount = 0 ∧ (1 : Nat) ≤ 1 ∧
    (update_sweep^[1] hbState).hbCount = 1 % 600 :=
  ⟨rfl, rfl, Nat.le_refl 1, (claim_C8 hbState rfl rfl 1 (Nat.le_refl 1)).1⟩

/-! ## The Chirps pattern (claim C9) -/

-- Falling sub-state, period above the minimum: subtract 3*step (u16).
theorem sweep9_fall (s : SysState) (hcs : s.chirpState = 0)
    (hgt : minDelay s.currentRange < s.currentFreqDelay) :
    sweep9 s = { s with
      currentFreqDelay := sub16 s.currentFreqDelay (speedSteps s.currentSpeed * 3) } := by
  simp only [sweep9]
  rw [if_pos hcs, if_pos hgt]

-- Falling sub-state, period at or below the minimum: switch to pause,
-- leaving period and chirp counter untouched.
theorem sweep9_to_pause (s : SysState) (hcs : s.chirpState = 0)
    (hle : s.currentFreqDelay ≤ minDelay s.currentRange) :
    sweep9 s = { s with chirpState := 1 } := by
  simp only [sweep9]
  rw [if_pos hcs, if_neg (by omega)]

-- Pause sub-state with fewer than 300 counted ticks: count one more.
theorem sweep9_pause_step (s : SysState) (hcs : s.chirpState = 1)
    (hcc : s.chirpCount < 300) :
    sweep9 s = { s with chirpCount := s.chirpCount + 1 } := by
  simp only [sweep9, add16]
  rw [if_neg (by omega)]
  have e : (s.chirpCount + 1) % 65536 = s.chirpCount + 1 := Nat.mod_eq_of_lt (by omega)
  rw [e, if_neg (by omega)]

-- Pause sub-state at 300 counted ticks: the next tick resets everything and
-- restores the period to the band maximum.
theorem sweep9_pause_reset (s : SysState) (hcs : s.chirpState = 1)
    (hcc : s.chirpCount = 300) :
    sweep9 s = { s with
      chirpCount := 0, chirpState := 0, currentFreqDelay := maxDelay s.currentRange } := by
  simp only [sweep9, add16]
  rw [if_neg (by omega)]
  have e : (s.chirpCount + 1) % 65536 = s.chirpCount + 1 := Nat.mod_eq_of_lt (by omega)
  rw [e, if_pos (by omega)]

-- The pause phase in closed form: for `k ≤ 300` ticks only the chirp
-- counter moves.
theorem sweep9_pause_iter (s : SysState) (h9 : s.currentPattern = 9)
    (hcs : s.chirpState = 1) (hc0 : s.chirpCount = 0)
    (k : Nat) (hk : k ≤ 300) :
    update_sweep^[k] s = { s with chirpCount := k } := by
  induction k with
  | zero =>
    have e : ({ s with chirpCount := 0 } : SysState) = s := by
      rw [← hc0]
    rw [Function.iterate_zero_apply, e]
  | succ k ih =>
    have H := ih (by omega)
    rw [Function.iterate_succ_apply', H]
    have h9b : ({ s with chirpCount := k } : SysState).currentPattern = 9 := h9
    have hcsb : ({ s with chirpCount := k } : SysState).chirpState = 1 := hcs
    have hccb : ({ s with chirpCount := k } : SysState).chirpCount < 300 := by
      dsimp only
      omega
    rw [update_sweep_at9 _ h9b, sweep9_pause_step _ hcsb hccb]

/-- Claim C9.  Pattern 9 (Chirps): in the falling sub-state a tick with the
period above `min` subtracts `3 * step` from the period in unsigned 16-bit
arithmetic (a genuine decrease whenever `3 * step ≤ period`) and stays in
the falling sub-state; a tick with the period at or below `min` switches to
the pause sub-state without changing the period; from the start of the
pause, each of the first 300 ticks only advances the pause counter (the
reset happens at none of them), and the 301st tick resets the counter,
returns to the falling sub-state and restores `period = max`. -/
theorem claim_C9 (s : SysState) (h9 : s.currentPattern = 9) (hv : s.currentSpeed < 5)
    (hp : s.currentFreqDelay < 65536) :
    (s.chirpState = 0 → minDelay s.currentRange < s.currentFreqDelay →
      (update_sweep s).currentFreqDelay =
        (s.currentFreqDelay + (65536 - speedSteps s.currentSpeed * 3)) % 65536 ∧
      (speedSteps s.currentSpeed * 3 ≤ s.currentFreqDelay →
        (update_sweep s).currentFreqDelay =
          s.currentFreqDelay - speedSteps s.currentSpeed * 3) ∧
      (update_sweep s).chirpState = 0 ∧
      (update_sweep s).chirpCount = s.chirpCount) ∧
    (s.chirpState = 0 → s.currentFreqDelay ≤ minDelay s.currentRange →
      (update_sweep s).chirpState = 1 ∧
      (update_sweep s).currentFreqDelay = s.currentFreqDelay ∧
      (update_sweep s).chirpCount = s.chirpCount) ∧
    (s.chirpState = 1 → s.chirpCount = 0 →
      (∀ k, k ≤ 300 → (update_sweep^[k] s).chirpState = 1 ∧
        (update_sweep^[k] s).chirpCount = k ∧
        (update_sweep^[k] s).currentFreqDelay = s.currentFreqDelay) ∧
      (update_sweep^[301] s).chirpState = 0 ∧
      (update_sweep^[301] s).chirpCount = 0 ∧
      (update_sweep^[301] s).currentFreqDelay = maxDelay s.currentRange) := by
  have hsb := speedSteps_bounds s.currentSpeed hv
  refine ⟨?_, ?_, ?_⟩
  · intro hcs hgt
    rw [update_sweep_at9 s h9, sweep9_fall s hcs hgt]
    refine ⟨?_, ?_, hcs, rfl⟩
    · dsimp only
      simp only [sub16]
      omega
    · intro hle
      dsimp only
      simp only [sub16]
      omega
  · intro hcs hle
    rw [update_sweep_at9 s h9, sweep9_to_pause s hcs hle]
    exact ⟨rfl, rfl, rfl⟩
  · intro hcs hc0
    constructor
    · intro k hk
      rw [sweep9_pause_iter s h9 hcs hc0 k hk]
      exact ⟨hcs, rfl, rfl⟩
    · have H := sweep9_pause_iter s h9 hcs hc0 300 (by omega)
      have h301 : update_sweep^[301] s = update_sweep (update_sweep^[300] s) :=
        Function.iterate_succ_apply' update_sweep 300 s
      have h9b : ({ s with chirpCount := 300 } : SysState).currentPattern = 9 := h9
      have hcsb : ({ s with chirpCount := 300 } : SysState).chirpState = 1 := hcs
      have hccb : ({ s with chirpCount := 300 } : SysState).chirpCount = 300 := rfl
      rw [h301, H, update_sweep_at9 _ h9b, sweep9_pause_reset _ hcsb hccb]
      exact ⟨rfl, rfl, rfl⟩

/-- The boot state with the Chirps pattern selected, the C9 witness input. -/
def chirpStart : SysState := { initState with currentPattern := 9 }

/-- Witness for C9: one falling tick from period 37 at step 1 yields 34. -/
theorem claim_C9_witness :
    chirpStart.currentPattern = 9 ∧ chirpStart.currentSpeed < 5 ∧
    chirpStart.currentFreqDelay < 65536 ∧ chirpStart.chirpState = 0 ∧
    minDelay chirpStart.currentRange < chirpStart.currentFreqDelay ∧
    (update_sweep chirpStart).currentFreqDelay =
      chirpStart.currentFreqDelay - speedSteps chirpStart.currentSpeed * 3 :=
  ⟨rfl, by decide, by decide, rfl, by decide,
    ((claim_C9 chirpStart rfl (by decide) (by decide)).1 rfl (by decide)).2.1 (by decide)⟩

/-! ## The Siren pattern (claim C10) -/

-- The 100th tick (counter at 99): reset the counter and toggle the period
-- to `max` if it equals `min`, to `min` otherwise.
theorem sweep8_toggle (s : SysState) (hc : s.sirenCount = 99) :
    sweep8 s = { s with
      sirenCount := 0,
      currentFreqDelay := if s.currentFreqDelay = minDelay s.currentRange
        then maxDelay s.currentRange else minDelay s.currentRange } := by
  simp only [sweep8, add16, hc]
  norm_num

-- Any earlier tick only advances the siren counter.
theorem sweep8_count (s : SysState) (hc : s.sirenCount + 1 < 100) :
    sweep8 s = { s with sirenCount := s.sirenCount + 1 } := by
  simp only [sweep8, add16]
  have e : (s.sirenCount + 1) % 65536 = s.sirenCount + 1 := Nat.mod_eq_of_lt (by omega)
  rw [e, if_neg (by omega)]

-- The Siren invariant: the counter stays below 100, and the period is
-- `min`, `max`, or still the untouched starting value (only possible before
-- the first toggle).
theorem siren_invariant (s : SysState) (h8 : s.currentPattern = 8)
    (hc : s.sirenCount < 100) (n : Nat) :
    (update_sweep^[n] s).sirenCount < 100 ∧
    ((update_sweep^[n] s).currentFreqDelay = minDelay s.currentRange ∨
     (update_sweep^[n] s).currentFreqDelay = maxDelay s.currentRange ∨
     (update_sweep^[n] s = { s with sirenCount := s.sirenCount + n } ∧
      n + s.sirenCount < 100)) := by
  induction n with
  | zero => exact ⟨hc, Or.inr (Or.inr ⟨rfl, by omega⟩)⟩
  | succ n ih =>
    obtain ⟨hlt, hdis⟩ := ih
    rw [Function.iterate_succ_apply']
    have hq8 : (update_sweep^[n] s).currentPattern = 8 := by
      rw [update_sweep_iter_pattern_eq]
      exact h8
    have hqr : (update_sweep^[n] s).currentRange = s.currentRange :=
      update_sweep_iter_range_eq s n
    by_cases h99 : (update_sweep^[n] s).sirenCount = 99
    · rw [update_sweep_at8 _ hq8, sweep8_toggle _ h99]
      refine ⟨by dsimp only; omega, ?_⟩
      dsimp only
      rw [hqr]
      split_ifs
      · exact Or.inr (Or.inl rfl)
      · exact Or.inl rfl
    · rw [update_sweep_at8 _ hq8, sweep8_count _ (by omega)]
      refine ⟨by dsimp only; omega, ?_⟩
      dsimp only
      rcases hdis with h | h | ⟨heq, hn⟩
      · exact Or.inl h
      · exact Or.inr (Or.inl h)
      · have hsc := congrArg SysState.sirenCount heq
        dsimp only at hsc
        right
        right
        constructor
        · rw [heq]
          have e : s.sirenCount + n + 1 = s.sirenCount + (n + 1) := by omega
          dsimp only
          rw [e]
        · omega

/-- Claim C10.  Pattern 8 (Siren), with the counter in its reachable range
(`sirenCount < 100`): the 100th tick (counter at 99) resets the counter and
sets the period to `max` if it equals `min` and to `min` for every other
value (band initial values and leftovers from other patterns included);
every other tick leaves the period untouched and advances the counter; and
from the first toggle on — every `n ≥ 100 - sirenCount` — the period is in
`{min, max}`, in particular at every subsequent toggle while the band is
unchanged. -/
theorem claim_C10 (s : SysState) (h8 : s.currentPattern = 8) (hc : s.sirenCount < 100) :
    (s.sirenCount = 99 →
      (update_sweep s).currentFreqDelay =
        (if s.currentFreqDelay = minDelay s.currentRange then maxDelay s.currentRange
         else minDelay s.currentRange) ∧
      (update_sweep s).sirenCount = 0) ∧
    (s.sirenCount + 1 < 100 →
      (update_sweep s).currentFreqDelay = s.currentFreqDelay ∧
      (update_sweep s).sirenCount = s.sirenCount + 1) ∧
    (∀ n, 100 - s.sirenCount ≤ n →
      (update_sweep^[n] s).currentFreqDelay = minDelay s.currentRange ∨
      (update_sweep^[n] s).currentFreqDelay = maxDelay s.currentRange) := by
  refine ⟨?_, ?_, ?_⟩
  · intro h99
    rw [update_sweep_at8 s h8, sweep8_toggle s h99]
    exact ⟨rfl, rfl⟩
  · intro hlt
    rw [update_sweep_at8 s h8, sweep8_count s hlt]
    exact ⟨rfl, rfl⟩
  · intro n hn
    rcases (siren_invariant s h8 hc n).2 with h | h | ⟨heq, hlt2⟩
    · exact Or.inl h
    · exact Or.inr h
    · omega

/-- The boot state with the Siren pattern selected, the C10 witness input. -/
def sirenStart : SysState := { initState with currentPattern := 8 }

/-- Witness for C10: 100 ticks after the start the period sits at `min` or
`max` of the Low band. -/
theorem claim_C10_witness :
    sirenStart.currentPattern = 8 ∧ sirenStart.sirenCount < 100 ∧
    100 - sirenStart.sirenCount ≤ 100 ∧
    ((update_sweep^[100] sirenStart).currentFreqDelay = minDelay sirenStart.currentRange ∨
     (update_sweep^[100] sirenStart).currentFreqDelay = maxDelay sirenStart.currentRange) :=
  ⟨rfl, by decide, by decide, (claim_C10 sirenStart rfl (by decide)).2.2 100 (by decide)⟩
